import Mathlib

/-!
Verification of the Petrushin cluster-analysis algorithm
(`petrushin_cluster_analysis.py`) against its natural-language
specification.

The embedding below is a shallow translation of the Python source:

* a directed graph is a node list plus an edge list (`Digraph`), with
  `has_edge`, `successors` and `predecessors` as in the networkx API
  (multi-edges collapse to one logical edge, successor lists are
  duplicate-free);
* Python `set` manipulations on node lists become duplicate-free list
  operations (`setDiff`, `List.dedup`); all functions only ever consume
  the set content of these lists, so list order is irrelevant to sizes
  and membership;
* Python floats in the scoring loop are modelled by exact rationals
  (`ℚ`); the display-only `round(p, 2)` of the report strings is not
  modelled, records keep exact values;
* the `while` loop of `find_single_solution` is modelled by a
  fuel-indexed recursion (`growLoopAux`); fuel 17 is proved sufficient
  (`growLoopAux_isSome`), so the `Option` never degenerates;
* the `ValueError` that Python's `int(parameter)` raises on a
  non-numeric, non-"max" parameter string is modelled by the `.invalid`
  constructor of `Param` and an `Except Unit` result for the search.
-/

namespace Petrushin

/-- A finite directed graph: the collaborator object of the algorithm
(networkx `DiGraph`).  `nodes` is the node list, `edges` the directed
edge list. -/
structure Digraph (α : Type) where
  nodes : List α
  edges : List (α × α)

variable {α : Type} [DecidableEq α]

/-- `G.has_edge(u, v)` of networkx: membership of the directed edge. -/
def hasEdge (G : Digraph α) (u v : α) : Bool :=
  decide ((u, v) ∈ G.edges)

/-- `G.successors(u)` of networkx: targets of edges leaving `u`,
without duplicates (a `DiGraph` is a simple graph). -/
def successors (G : Digraph α) (u : α) : List α :=
  ((G.edges.filter (fun e => decide (e.1 = u))).map Prod.snd).dedup

/-- `G.predecessors(u)` of networkx: sources of edges entering `u`. -/
def predecessors (G : Digraph α) (u : α) : List α :=
  ((G.edges.filter (fun e => decide (e.2 = u))).map Prod.fst).dedup

/-- Python `list(set(xs) - set(ys))`: the elements of `xs` that are not
in `ys`, without duplicates. -/
def setDiff (xs ys : List α) : List α :=
  (xs.filter (fun a => decide (a ∉ ys))).dedup

/-- The `in_con` / `out_con` scan of the source: does `k` have an edge
to some member of the list `ks`?  (`in_con` passes the node's own
cluster, `out_con` passes the other cluster.) -/
def conTo (G : Digraph α) (ks : List α) (k : α) : Bool :=
  ks.any (fun k2 => hasEdge G k k2)

/-- The `temp1` computation of `unique_sucsessors` (source lines
91-97): the concatenated successor lists of a cluster's members. -/
def sucsOf (G : Digraph α) (cluster : List α) : List α :=
  (cluster.map (fun k => successors G k)).flatten

/-- `excluding_inter_connections(G, info)` (source lines 33-71): a node
of either cluster is dropped when it has no edge into its own cluster
(`in_con == 0`) but an edge into the other one (`out_con == 1`); the
final `list(set(info[j]) - set(temp[j]))` makes the result
duplicate-free. -/
def excluding_inter_connections (G : Digraph α) (info : List α × List α) :
    List α × List α :=
  ((info.1.filter (fun k => !(!conTo G info.1 k && conTo G info.2 k))).dedup,
   (info.2.filter (fun k => !(!conTo G info.2 k && conTo G info.1 k))).dedup)

/-- `unique_sucsessors(G, info)` (source lines 73-124): each cluster
gains the successors unique to its side
(`info[0] += list(set(temp1[0]) - set(temp1[1]))` and symmetrically),
then every node with both an in-cluster and a cross-cluster outgoing
edge (`in_con == 1 and out_con == 1`) is removed, and the final set
subtraction leaves duplicate-free lists. -/
def unique_sucsessors (G : Digraph α) (info : List α × List α) :
    List α × List α :=
  let t0 := sucsOf G info.1
  let t1 := sucsOf G info.2
  let r := info.1 ++ setDiff t0 t1
  let b := info.2 ++ setDiff t1 t0
  ((r.filter (fun k => !(conTo G r k && conTo G b k))).dedup,
   (b.filter (fun k => !(conTo G b k && conTo G r k))).dedup)

/-- Helper for `create_table`: the Python double loop pairs each node
with every later node of the node list, keeping the pair when the later
node is neither a successor nor a predecessor of the earlier one. -/
def tablePairs (G : Digraph α) : List α → List (α × α)
  | [] => []
  | k :: rest =>
      (rest.filterMap (fun v =>
        if !(successors G k).contains v && !(predecessors G k).contains v
        then some (k, v) else none)) ++ tablePairs G rest

/-- `create_table(G)` (source lines 126-149): all candidate seed pairs,
i.e. ordered-by-position pairs of mutually non-adjacent nodes. -/
def create_table (G : Digraph α) : List (α × α) :=
  tablePairs G G.nodes

/-- The `while check > 0` loop body of `find_single_solution` (source
lines 167-177), as a fuel-indexed recursion.  State: the running maxima
`length1`, `length2`, the `check` counter (an integer decremented to
stop), the round counter `n`, and `cnt`, the number of
`unique_sucsessors` invocations performed so far.  Returns `none` only
on fuel exhaustion, which `growLoopAux_isSome` rules out for fuel 17. -/
def growLoopAux (G : Digraph α) :
    Nat → List α × List α → Nat → Nat → Int → Nat → Nat →
    Option ((List α × List α) × Nat)
  | 0, info, _, _, check, _, cnt =>
    if check > 0 then none else some (info, cnt)
  | fuel + 1, info, length1, length2, check, n, cnt =>
    if check > 0 then
      let info2 := unique_sucsessors G info
      let n2 := n + 1
      if length1 < info2.1.length ∨ length2 < info2.2.length then
        growLoopAux G fuel info2 info2.1.length info2.2.length
          (if n2 > 15 then check - 1 else check) n2 (cnt + 1)
      else
        growLoopAux G fuel info2 length1 length2
          (if n2 > 15 then check - 2 else check - 1) n2 (cnt + 1)
    else
      some (info, cnt)

/-- `find_single_solution(G, info)` (source lines 152-178): run the
growth loop from `length1 = length2 = 0`, `check = 1`, `n = 0`.  The
fuel 17 is sufficient (`growLoopAux_isSome`), so the fallback arm is
never taken. -/
def find_single_solution (G : Digraph α) (info : List α × List α) :
    List α × List α :=
  match growLoopAux G 17 info 0 0 1 0 0 with
  | some (res, _) => res
  | none => info

/-- The number of `unique_sucsessors` invocations (growth rounds) that
`find_single_solution` performs on the given input. -/
def growthRounds (G : Digraph α) (info : List α × List α) : Nat :=
  match growLoopAux G 17 info 0 0 1 0 0 with
  | some (_, cnt) => cnt
  | none => 17

/-- The `criterion` argument of `find_clusters`; the source only ever
compares it against the strings "power" and "size". -/
inductive Criterion where
  | power : Criterion
  | size : Criterion
deriving DecidableEq

/-- The `parameter` argument of `find_clusters`, abstracted by its
parse class: the literal string "max", a numeric string with value `n`
(what Python's `int(parameter)` returns), or a string that is neither,
on which `int(parameter)` raises `ValueError`. -/
inductive Param where
  | max : Param
  | num : Int → Param
  | invalid : Param
deriving DecidableEq

/-- One entry of `info_cluster` (source lines 227, 230, 240, 243): the
seed pair, the two cluster sizes (the source keeps them as floats) and
the power saving.  The "Size R+B" entry of the size-mode records is the
sum of the two size fields and the display rounding `round(p, 2)` is
not modelled, so both are omitted. -/
structure SolutionRecord (α : Type) where
  node1 : α
  node2 : α
  rsize : ℚ
  bsize : ℚ
  psave : ℚ
deriving DecidableEq

/-- The mutable state of the search loop of `find_clusters` (source
lines 206-207): the running maxima, the retained cluster pair, the
max-mode record (`info_cluster` when it holds a single flat record) and
the threshold-mode record list (`info_cluster` when records are
appended). -/
structure SState (α : Type) where
  p_eff_max : ℚ
  max_len1 : ℚ
  max_len2 : ℚ
  cluster : List α × List α
  info_max : Option (SolutionRecord α)
  info_list : List (SolutionRecord α)
deriving DecidableEq

/-- The state before the first candidate: `p_eff_max = 0`,
`max_len1 = max_len2 = 0`, `cluster = [[],[]]`, `info_cluster = []`. -/
def initState : SState α :=
  ⟨0, 0, 0, ([], []), none, []⟩

/-- `p_after` of source line 218, with `a = nodes - length1 - length2`
inlined (source line 217). -/
def codePAfter (nodes l1 l2 : ℚ) : ℚ :=
  l1 * (l1 + (nodes - l1 - l2)) + l2 * (l2 + (nodes - l1 - l2)) +
    nodes * (nodes - l1 - l2)

/-- `p_eff` of source line 219: `100 * (1 - p_after / p_before)` with
`p_before = nodes * nodes`. -/
def codePEff (nodes l1 l2 : ℚ) : ℚ :=
  100 * (1 - codePAfter nodes l1 l2 / (nodes * nodes))

/-- Modelled from the spec: the scoring formula as the spec states it,
with `g` an explicit argument — `p_before = nodes²`,
`p_after = r·(r+g) + b·(b+g) + nodes·g`,
`power = 100·(1 − p_after/p_before)`.  Used only to compare the spec's
formula with the code's computation. -/
def specPower (nodes r b g : ℚ) : ℚ :=
  100 * (1 - (r * (r + g) + b * (b + g) + nodes * g) / (nodes * nodes))

/-- The cluster pair the search computes for candidate `c` (source
lines 212-214): grow from the singleton seeds, then filter when
`exclude_inter` is set. -/
def tempC (G : Digraph α) (ex : Bool) (c : α × α) : List α × List α :=
  let t := find_single_solution G ([c.1], [c.2])
  if ex then excluding_inter_connections G t else t

/-- The power saving the search computes for candidate `c` (source
lines 215-219). -/
def pEffC (G : Digraph α) (ex : Bool) (c : α × α) : ℚ :=
  codePEff (G.nodes.length : ℚ) ((tempC G ex c).1.length : ℚ)
    ((tempC G ex c).2.length : ℚ)

/-- The `length1 != 0 and length2 != 0` guard of every selection
branch. -/
def validC (G : Digraph α) (ex : Bool) (c : α × α) : Bool :=
  decide ((tempC G ex c).1.length ≠ 0) && decide ((tempC G ex c).2.length ≠ 0)

/-- The record the source builds for candidate `c`. -/
def recC (G : Digraph α) (ex : Bool) (c : α × α) : SolutionRecord α :=
  ⟨c.1, c.2, ((tempC G ex c).1.length : ℚ), ((tempC G ex c).2.length : ℚ),
    pEffC G ex c⟩

/-- One iteration of the candidate loop of `find_clusters` (source
lines 211-246).  An `.invalid` parameter reaching a threshold branch is
the `int(parameter)` call raising `ValueError`, modelled as
`Except.error ()`. -/
def evalCandidate (G : Digraph α) (crit : Criterion) (param : Param)
    (ex : Bool) (st : SState α) (c : α × α) : Except Unit (SState α) :=
  let temp := tempC G ex c
  let length1 : ℚ := (temp.1.length : ℚ)
  let length2 : ℚ := (temp.2.length : ℚ)
  let p_eff := pEffC G ex c
  match crit, param with
  | .power, .max =>
      if p_eff > st.p_eff_max ∧ length1 ≠ 0 ∧ length2 ≠ 0 then
        .ok { st with p_eff_max := p_eff, max_len1 := length1,
                      max_len2 := length2, cluster := temp,
                      info_max := some (recC G ex c) }
      else .ok st
  | .power, .num n =>
      if p_eff > (n : ℚ) ∧ length1 ≠ 0 ∧ length2 ≠ 0 then
        let st2 := { st with info_list := st.info_list ++ [recC G ex c] }
        if st2.p_eff_max < p_eff then
          .ok { st2 with p_eff_max := p_eff, cluster := temp }
        else .ok st2
      else .ok st
  | .power, .invalid => .error ()
  | .size, .max =>
      if st.max_len1 + st.max_len2 < length1 + length2 ∧
          length1 ≠ 0 ∧ length2 ≠ 0 then
        .ok { st with p_eff_max := p_eff, max_len1 := length1,
                      max_len2 := length2, cluster := temp,
                      info_max := some (recC G ex c) }
      else .ok st
  | .size, .num n =>
      if length1 + length2 > (n : ℚ) ∧ length1 ≠ 0 ∧ length2 ≠ 0 then
        let st2 := { st with info_list := st.info_list ++ [recC G ex c] }
        if st2.p_eff_max < p_eff then
          .ok { st2 with p_eff_max := p_eff, cluster := temp }
        else .ok st2
      else .ok st
  | .size, .invalid => .error ()

/-- The pure content of `evalCandidate` for the parameters that never
raise; on `.invalid` it returns the state unchanged (that case is never
used — `evalCandidate_ok` links the two functions only for valid
parameters). -/
def evalStep (G : Digraph α) (crit : Criterion) (param : Param)
    (ex : Bool) (st : SState α) (c : α × α) : SState α :=
  let temp := tempC G ex c
  let length1 : ℚ := (temp.1.length : ℚ)
  let length2 : ℚ := (temp.2.length : ℚ)
  let p_eff := pEffC G ex c
  match crit, param with
  | .power, .max =>
      if p_eff > st.p_eff_max ∧ length1 ≠ 0 ∧ length2 ≠ 0 then
        { st with p_eff_max := p_eff, max_len1 := length1,
                  max_len2 := length2, cluster := temp,
                  info_max := some (recC G ex c) }
      else st
  | .power, .num n =>
      if p_eff > (n : ℚ) ∧ length1 ≠ 0 ∧ length2 ≠ 0 then
        let st2 := { st with info_list := st.info_list ++ [recC G ex c] }
        if st2.p_eff_max < p_eff then
          { st2 with p_eff_max := p_eff, cluster := temp }
        else st2
      else st
  | .power, .invalid => st
  | .size, .max =>
      if st.max_len1 + st.max_len2 < length1 + length2 ∧
          length1 ≠ 0 ∧ length2 ≠ 0 then
        { st with p_eff_max := p_eff, max_len1 := length1,
                  max_len2 := length2, cluster := temp,
                  info_max := some (recC G ex c) }
      else st
  | .size, .num n =>
      if length1 + length2 > (n : ℚ) ∧ length1 ≠ 0 ∧ length2 ≠ 0 then
        let st2 := { st with info_list := st.info_list ++ [recC G ex c] }
        if st2.p_eff_max < p_eff then
          { st2 with p_eff_max := p_eff, cluster := temp }
        else st2
      else st
  | .size, .invalid => st

/-- `find_clusters(G, criterion, parameter, exclude_inter)` (source
lines 180-249): fold the candidate loop over the seed-pair table; an
uncaught `ValueError` aborts the loop (`Except` short-circuit).  The
Python return value is the pair `(st.cluster, info_cluster)` of the
final state. -/
def find_clusters (G : Digraph α) (crit : Criterion) (param : Param)
    (ex : Bool) : Except Unit (SState α) :=
  (create_table G).foldlM (evalCandidate G crit param ex) initState

/-- The selection skeleton shared by the strict-improvement branches of
the search: remember the candidate (and its score) when it satisfies
the branch predicate and strictly beats the running maximum. -/
def selStep {κ : Type} (pred : κ → Bool) (p : κ → ℚ)
    (st : ℚ × Option κ) (c : κ) : ℚ × Option κ :=
  if pred c = true ∧ st.1 < p c then (p c, some c) else st

/-- Example graph: two nodes, no edges (the empty-graph scenario of the
spec: exactly one candidate pair, growth returns the seeds). -/
def exG2 : Digraph Nat := ⟨[0, 1], []⟩

/-- Example graph: `0 → 1`, `0 → 2`, `1 → 2`, exhibiting a second
interconnection-filter pass that removes a node. -/
def exG3 : Digraph Nat := ⟨[0, 1, 2], [(0, 1), (0, 2), (1, 2)]⟩

/-- Example graph: `0 → 2`, `1 → 3`, `2 → 1`, on which growth from the
candidate pair `(0, 1)` puts node 1 into both clusters. -/
def exG4 : Digraph Nat := ⟨[0, 1, 2, 3], [(0, 2), (1, 3), (2, 1)]⟩

/-- Example graph on which the second growth round from the candidate
pair `(0, 3)` shrinks `|R| + |B|` from 4 to 3. -/
def exG5 : Digraph Nat :=
  ⟨[0, 1, 2, 3, 4], [(0, 1), (1, 2), (1, 3), (3, 4), (4, 3), (2, 1), (2, 3)]⟩

/-- Example graph: a directed chain `0 → 2 → 3 → ⋯ → 17` plus the
isolated node 1; growth from seeds `(0, 1)` gains one node per round
for 16 rounds. -/
def exGchain : Digraph Nat :=
  ⟨List.range 18, (0, 2) :: (List.range' 2 15).map (fun i => (i, i + 1))⟩

/-- Example graph: two mutually adjacent nodes, so the candidate table
is empty. -/
def exGK2 : Digraph Nat := ⟨[0, 1], [(0, 1), (1, 0)]⟩

/-- Example graph: a single node with a self-loop; growing from the
degenerate pair `(0, 0)` empties both clusters. -/
def exGLoop : Digraph Nat := ⟨[0], [(0, 0)]⟩

/-- The qualifying condition of the size-threshold branch (source line
242): `length1 + length2 > int(parameter) and length1 != 0 and
length2 != 0`. -/
def qualSizeC (G : Digraph α) (ex : Bool) (n : Int) (c : α × α) : Bool :=
  decide (((tempC G ex c).1.length : Int) + ((tempC G ex c).2.length : Int)
      > n ∧
    (tempC G ex c).1.length ≠ 0 ∧ (tempC G ex c).2.length ≠ 0)

/-- Coupling between the full search state of the "power"/"max" fold
and the selection skeleton: the running maximum agrees, and the
retained cluster, record and maximum are those of the remembered
candidate (or still the initial values when none is remembered). -/
def pmAbs (G : Digraph α) (ex : Bool) (st : SState α)
    (a : ℚ × Option (α × α)) : Prop :=
  st.p_eff_max = a.1 ∧ st.info_list = [] ∧
  (match a.2 with
   | none => st.cluster = ([], []) ∧ st.info_max = none ∧ a.1 = 0
   | some c => st.cluster = tempC G ex c ∧
       st.info_max = some (recC G ex c) ∧ a.1 = pEffC G ex c)

/-- Coupling between the full search state of a threshold-mode fold and
the selection skeleton (threshold modes never touch `info_max`,
`max_len1` or `max_len2`; the record list is tracked separately). -/
def thAbs (G : Digraph α) (ex : Bool) (st : SState α)
    (a : ℚ × Option (α × α)) : Prop :=
  st.p_eff_max = a.1 ∧
  (match a.2 with
   | none => st.cluster = ([], []) ∧ a.1 = 0
   | some c => st.cluster = tempC G ex c ∧ a.1 = pEffC G ex c)

theorem mem_setDiff {xs ys : List α} {a : α} :
    a ∈ setDiff xs ys ↔ a ∈ xs ∧ a ∉ ys := by
  simp [setDiff]

theorem mem_successors {G : Digraph α} {u v : α} :
    v ∈ successors G u ↔ (u, v) ∈ G.edges := by
  simp only [successors, List.mem_dedup, List.mem_map, List.mem_filter,
    decide_eq_true_eq]
  constructor
  · rintro ⟨⟨x, y⟩, ⟨he, hu⟩, hv⟩
    subst hu
    subst hv
    exact he
  · intro h
    exact ⟨(u, v), ⟨h, rfl⟩, rfl⟩

theorem conTo_eq_true {G : Digraph α} {ks : List α} {k : α} :
    conTo G ks k = true ↔ ∃ k2 ∈ ks, (k, k2) ∈ G.edges := by
  simp [conTo, hasEdge]

theorem excl_fst_subset (G : Digraph α) (info : List α × List α) :
    (excluding_inter_connections G info).1 ⊆ info.1 := by
  intro x hx
  simp only [excluding_inter_connections, List.mem_dedup,
    List.mem_filter] at hx
  exact hx.1

theorem excl_snd_subset (G : Digraph α) (info : List α × List α) :
    (excluding_inter_connections G info).2 ⊆ info.2 := by
  intro x hx
  simp only [excluding_inter_connections, List.mem_dedup,
    List.mem_filter] at hx
  exact hx.1

theorem growLoopAux_bound (G : Digraph α) :
    ∀ (fuel : Nat) (info : List α × List α) (l1 l2 : Nat) (check : Int)
      (n cnt : Nat), check ≤ 1 → (0 < check → n ≤ 15) → 17 ≤ n + fuel →
      ∃ res, growLoopAux G fuel info l1 l2 check n cnt = some res ∧
        res.2 ≤ cnt + (16 - n) := by
  intro fuel
  induction fuel with
  | zero =>
      intro info l1 l2 check n cnt hc1 hcn hnf
      have hc0 : ¬ check > 0 := by
        intro h
        have := hcn h
        omega
      exact ⟨(info, cnt), by simp [growLoopAux, hc0], by omega⟩
  | succ fuel ih =>
      intro info l1 l2 check n cnt hc1 hcn hnf
      by_cases hc0 : check > 0
      · have hn15 : n ≤ 15 := hcn hc0
        rw [growLoopAux, if_pos hc0]
        by_cases hgrow : l1 < (unique_sucsessors G info).1.length ∨
            l2 < (unique_sucsessors G info).2.length
        · rw [if_pos hgrow]
          obtain ⟨res, heq, hle⟩ :=
            ih (unique_sucsessors G info) (unique_sucsessors G info).1.length
              (unique_sucsessors G info).2.length
              (if n + 1 > 15 then check - 1 else check) (n + 1) (cnt + 1)
              (by split <;> omega)
              (by split <;> omega)
              (by omega)
          exact ⟨res, heq, by omega⟩
        · rw [if_neg hgrow]
          obtain ⟨res, heq, hle⟩ :=
            ih (unique_sucsessors G info) l1 l2
              (if n + 1 > 15 then check - 2 else check - 1) (n + 1) (cnt + 1)
              (by split <;> omega)
              (by split <;> omega)
              (by omega)
          exact ⟨res, heq, by omega⟩
      · exact ⟨(info, cnt), by rw [growLoopAux, if_neg hc0], by omega⟩

theorem growLoopAux_isSome (G : Digraph α) (info : List α × List α) :
    ∃ res, growLoopAux G 17 info 0 0 1 0 0 = some res ∧ res.2 ≤ 16 := by
  obtain ⟨res, heq, hle⟩ :=
    growLoopAux_bound G 17 info 0 0 1 0 0 (by omega) (by omega) (by omega)
  exact ⟨res, heq, by omega⟩

theorem mem_sucsOf {G : Digraph α} {cluster : List α} {x : α} :
    x ∈ sucsOf G cluster ↔ ∃ k ∈ cluster, (k, x) ∈ G.edges := by
  simp [sucsOf, List.mem_flatten, mem_successors]

theorem mem_unique_fst {G : Digraph α} {info : List α × List α} {x : α} :
    x ∈ (unique_sucsessors G info).1 ↔
      (x ∈ info.1 ∨ (x ∈ sucsOf G info.1 ∧ x ∉ sucsOf G info.2)) ∧
      (conTo G (info.1 ++ setDiff (sucsOf G info.1) (sucsOf G info.2)) x
          = false ∨
       conTo G (info.2 ++ setDiff (sucsOf G info.2) (sucsOf G info.1)) x
          = false) := by
  simp only [unique_sucsessors, List.mem_dedup, List.mem_filter,
    List.mem_append, mem_setDiff, Bool.not_and, Bool.or_eq_true,
    Bool.not_eq_true', Bool.not_eq_true]

theorem mem_unique_snd {G : Digraph α} {info : List α × List α} {x : α} :
    x ∈ (unique_sucsessors G info).2 ↔
      (x ∈ info.2 ∨ (x ∈ sucsOf G info.2 ∧ x ∉ sucsOf G info.1)) ∧
      (conTo G (info.2 ++ setDiff (sucsOf G info.2) (sucsOf G info.1)) x
          = false ∨
       conTo G (info.1 ++ setDiff (sucsOf G info.1) (sucsOf G info.2)) x
          = false) := by
  simp only [unique_sucsessors, List.mem_dedup, List.mem_filter,
    List.mem_append, mem_setDiff, Bool.not_and, Bool.or_eq_true,
    Bool.not_eq_true', Bool.not_eq_true]

theorem mem_round1_fst {G : Digraph α} {k1 k2 x : α}
    (hx : x ∈ (unique_sucsessors G ([k1], [k2])).1) :
    x = k1 ∨ ((k1, x) ∈ G.edges ∧ (k2, x) ∉ G.edges) := by
  have h := (mem_unique_fst.mp hx).1
  rcases h with h | h
  · exact Or.inl (List.mem_singleton.mp h)
  · refine Or.inr ⟨?_, ?_⟩
    · obtain ⟨k, hk, he⟩ := mem_sucsOf.mp h.1
      rw [List.mem_singleton.mp hk] at he
      exact he
    · intro hc
      exact h.2 (mem_sucsOf.mpr ⟨k2, List.mem_singleton.mpr rfl, hc⟩)

theorem mem_round1_snd {G : Digraph α} {k1 k2 x : α}
    (hx : x ∈ (unique_sucsessors G ([k1], [k2])).2) :
    x = k2 ∨ ((k2, x) ∈ G.edges ∧ (k1, x) ∉ G.edges) := by
  have h := (mem_unique_snd.mp hx).1
  rcases h with h | h
  · exact Or.inl (List.mem_singleton.mp h)
  · refine Or.inr ⟨?_, ?_⟩
    · obtain ⟨k, hk, he⟩ := mem_sucsOf.mp h.1
      rw [List.mem_singleton.mp hk] at he
      exact he
    · intro hc
      exact h.2 (mem_sucsOf.mpr ⟨k1, List.mem_singleton.mpr rfl, hc⟩)

theorem seed_round1_fst (G : Digraph α) (k1 k2 : α)
    (h12 : (k1, k2) ∉ G.edges) :
    k1 ∈ (unique_sucsessors G ([k1], [k2])).1 := by
  rw [mem_unique_fst]
  refine ⟨Or.inl (List.mem_singleton.mpr rfl), Or.inr ?_⟩
  rw [Bool.eq_false_iff]
  intro hout
  obtain ⟨y, hy, he⟩ := conTo_eq_true.mp hout
  rcases List.mem_append.mp hy with h | h
  · rw [List.mem_singleton.mp h] at he
    exact h12 he
  · exact (mem_setDiff.mp h).2
      (mem_sucsOf.mpr ⟨k1, List.mem_singleton.mpr rfl, he⟩)

theorem seed_round1_snd (G : Digraph α) (k1 k2 : α)
    (h21 : (k2, k1) ∉ G.edges) :
    k2 ∈ (unique_sucsessors G ([k1], [k2])).2 := by
  rw [mem_unique_snd]
  refine ⟨Or.inl (List.mem_singleton.mpr rfl), Or.inr ?_⟩
  rw [Bool.eq_false_iff]
  intro hout
  obtain ⟨y, hy, he⟩ := conTo_eq_true.mp hout
  rcases List.mem_append.mp hy with h | h
  · rw [List.mem_singleton.mp h] at he
    exact h21 he
  · exact (mem_setDiff.mp h).2
      (mem_sucsOf.mpr ⟨k2, List.mem_singleton.mpr rfl, he⟩)

/-- C1, counterexample: on the graph `exG4` the candidate pair
`(0, 1)` is produced by `create_table`, yet the pair that
`find_single_solution` (SeedGrower) returns for it contains node 1 in
both clusters — `info[0] ∩ info[1] = ∅` fails at the final observation
point (the overlap first appears after the second growth round). -/
theorem c1_counterexample :
    (0, 1) ∈ create_table exG4 ∧
    1 ∈ (find_single_solution exG4 ([0], [1])).1 ∧
    1 ∈ (find_single_solution exG4 ([0], [1])).2 := by
  decide

/-- C1, amended: disjointness does hold for the seed state and after
the first growth round of SeedGrower (for a distinct, mutually
non-adjacent candidate pair); it is not preserved by later rounds. -/
theorem c1_first_round_disjoint (G : Digraph α) (k1 k2 : α)
    (hne : k1 ≠ k2) (h12 : (k1, k2) ∉ G.edges)
    (h21 : (k2, k1) ∉ G.edges) :
    ∀ x ∈ (unique_sucsessors G ([k1], [k2])).1,
      x ∉ (unique_sucsessors G ([k1], [k2])).2 := by
  intro x hx hx2
  rcases mem_round1_fst hx with rfl | ⟨e1, ne2⟩
  · rcases mem_round1_snd hx2 with h | ⟨e2, _⟩
    · exact hne h
    · exact h21 e2
  · rcases mem_round1_snd hx2 with rfl | ⟨e2, _⟩
    · exact h12 e1
    · exact ne2 e2

/-- Witness for `c1_first_round_disjoint` on the two-node edgeless
graph. -/
theorem c1_first_round_disjoint_witness :
    ((0 : Nat) ≠ 1 ∧ (0, 1) ∉ exG2.edges ∧ (1, 0) ∉ exG2.edges) ∧
    0 ∉ (unique_sucsessors exG2 ([0], [1])).2 :=
  ⟨⟨by decide, by decide, by decide⟩,
    c1_first_round_disjoint exG2 0 1 (by decide) (by decide) (by decide)
      0 (by decide)⟩

/-- C2, counterexample: on the chain graph `exGchain` the growth loop
for the seed pair `(0, 1)` performs 16 invocations of
`unique_sucsessors`, not at most 15. -/
theorem c2_counterexample : growthRounds exGchain ([0], [1]) = 16 := by
  decide

/-- C2, amended: for every graph and every seed pair the growth loop of
`find_single_solution` performs at most 16 invocations of
`unique_sucsessors` (growth continuing through round 16 is stopped by
the `n > 15` decrement only after that round has executed). -/
theorem c2_growth_rounds_le (G : Digraph α) (info : List α × List α) :
    growthRounds G info ≤ 16 := by
  obtain ⟨⟨res, cnt⟩, heq, hle⟩ := growLoopAux_isSome G info
  unfold growthRounds
  rw [heq]
  exact hle

/-- C4, counterexample: on `exG3` with clusters `R = [0, 1]`,
`B = [2]`, the first application of `excluding_inter_connections`
removes node 1, after which node 0 has lost its only in-cluster edge;
the second application then removes node 0 as well, so the filter is
not idempotent. -/
theorem c4_counterexample :
    excluding_inter_connections exG3
        (excluding_inter_connections exG3 ([0, 1], [2])) ≠
      excluding_inter_connections exG3 ([0, 1], [2]) := by
  decide

/-- C4, amended: a second application of `excluding_inter_connections`
only ever removes further nodes — both clusters of the twice-filtered
pair are contained in the once-filtered ones — but it need not be a
no-op. -/
theorem c4_second_pass_shrinks (G : Digraph α) (info : List α × List α) :
    (excluding_inter_connections G
        (excluding_inter_connections G info)).1 ⊆
      (excluding_inter_connections G info).1 ∧
    (excluding_inter_connections G
        (excluding_inter_connections G info)).2 ⊆
      (excluding_inter_connections G info).2 :=
  ⟨excl_fst_subset G (excluding_inter_connections G info),
   excl_snd_subset G (excluding_inter_connections G info)⟩

/-- Witness for `c4_second_pass_shrinks` on `exG3`. -/
theorem c4_second_pass_shrinks_witness :
    2 ∈ (excluding_inter_connections exG3 ([0, 1], [2])).2 :=
  (c4_second_pass_shrinks exG3 ([0, 1], [2])).2 (by decide)

/-- C5, counterexample: on `exG5` with the candidate pair `(0, 3)`
(produced by `create_table`), the first growth round reaches
`|R| + |B| = 4` and the second round drops it to 3; both rounds are
executed by `find_single_solution`. -/
theorem c5_counterexample :
    (0, 3) ∈ create_table exG5 ∧
    (unique_sucsessors exG5 ([0], [3])).1.length +
      (unique_sucsessors exG5 ([0], [3])).2.length = 4 ∧
    (unique_sucsessors exG5 (unique_sucsessors exG5 ([0], [3]))).1.length +
      (unique_sucsessors exG5 (unique_sucsessors exG5 ([0], [3]))).2.length
      = 3 ∧
    growthRounds exG5 ([0], [3]) = 2 ∧
    find_single_solution exG5 ([0], [3]) = ([0], [3, 4]) := by
  decide

/-- C5, amended: `|R| + |B|` cannot drop below its seed value 2 in the
first growth round — both seeds of a mutually non-adjacent pair survive
round one — but later rounds can strictly decrease `|R| + |B|`. -/
theorem c5_first_round_total (G : Digraph α) (k1 k2 : α)
    (h12 : (k1, k2) ∉ G.edges) (h21 : (k2, k1) ∉ G.edges) :
    2 ≤ (unique_sucsessors G ([k1], [k2])).1.length +
        (unique_sucsessors G ([k1], [k2])).2.length := by
  have h1 : 0 < (unique_sucsessors G ([k1], [k2])).1.length :=
    List.length_pos.mpr (List.ne_nil_of_mem (seed_round1_fst G k1 k2 h12))
  have h2 : 0 < (unique_sucsessors G ([k1], [k2])).2.length :=
    List.length_pos.mpr (List.ne_nil_of_mem (seed_round1_snd G k1 k2 h21))
  omega

/-- Witness for `c5_first_round_total` on the two-node edgeless
graph. -/
theorem c5_first_round_total_witness :
    ((0, 1) ∉ exG2.edges ∧ (1, 0) ∉ exG2.edges) ∧
    2 ≤ (unique_sucsessors exG2 ([0], [1])).1.length +
        (unique_sucsessors exG2 ([0], [1])).2.length :=
  ⟨⟨by decide, by decide⟩,
    c5_first_round_total exG2 0 1 (by decide) (by decide)⟩

theorem pEff_identity (n l1 l2 : ℚ) (hn : n ≠ 0) :
    codePEff n l1 l2 = 200 * l1 * l2 / (n * n) := by
  unfold codePEff codePAfter
  field_simp
  ring

theorem pEff_pos (n l1 l2 : ℚ) (hn : n ≠ 0) (h1 : 0 < l1) (h2 : 0 < l2) :
    0 < codePEff n l1 l2 := by
  rw [pEff_identity n l1 l2 hn]
  exact div_pos (by positivity) (mul_self_pos.mpr hn)

theorem validC_iff {G : Digraph α} {ex : Bool} {c : α × α} :
    validC G ex c = true ↔
      ((tempC G ex c).1.length : ℚ) ≠ 0 ∧
      ((tempC G ex c).2.length : ℚ) ≠ 0 := by
  simp [validC, Nat.cast_eq_zero]

theorem qualSizeC_iff {G : Digraph α} {ex : Bool} {n : Int} {c : α × α} :
    qualSizeC G ex n c = true ↔
      ((tempC G ex c).1.length : ℚ) + ((tempC G ex c).2.length : ℚ)
          > (n : ℚ) ∧
      ((tempC G ex c).1.length : ℚ) ≠ 0 ∧
      ((tempC G ex c).2.length : ℚ) ≠ 0 := by
  simp only [qualSizeC, decide_eq_true_eq, gt_iff_lt, ne_eq,
    Nat.cast_eq_zero]
  constructor
  · rintro ⟨ha, hb, hc⟩
    exact ⟨by exact_mod_cast ha, hb, hc⟩
  · rintro ⟨ha, hb, hc⟩
    exact ⟨by exact_mod_cast ha, hb, hc⟩

theorem create_table_nodes_ne_nil {G : Digraph α}
    (h : create_table G ≠ []) : G.nodes ≠ [] := by
  intro hn
  apply h
  unfold create_table
  rw [hn]
  rfl

theorem len_pos_of_ne_zero {β : Type} {l : List β}
    (h : ((l.length : ℚ)) ≠ 0) : 0 < ((l.length : ℚ)) := by
  have : (0 : ℚ) ≤ (l.length : ℚ) := by positivity
  exact lt_of_le_of_ne this (Ne.symm h)

theorem evalCandidate_ok (G : Digraph α) (crit : Criterion)
    (param : Param) (ex : Bool) (hp : param ≠ Param.invalid)
    (st : SState α) (c : α × α) :
    evalCandidate G crit param ex st c =
      Except.ok (evalStep G crit param ex st c) := by
  cases crit <;> cases param <;> first
    | exact absurd rfl hp
    | · simp only [evalCandidate, evalStep]
        split
        all_goals first
          | rfl
          | (split <;> rfl)

theorem foldlM_ok {σ κ : Type} (f : σ → κ → Except Unit σ)
    (g : σ → κ → σ) (hfg : ∀ s c, f s c = Except.ok (g s c)) :
    ∀ (cs : List κ) (s : σ),
      cs.foldlM f s = Except.ok (cs.foldl g s) := by
  intro cs
  induction cs with
  | nil => intro s; rfl
  | cons c cs ih =>
      intro s
      calc (c :: cs).foldlM f s = f s c >>= fun s2 => cs.foldlM f s2 := rfl
        _ = Except.ok (g s c) >>= fun s2 => cs.foldlM f s2 := by rw [hfg]
        _ = cs.foldlM f (g s c) := rfl
        _ = Except.ok (cs.foldl g (g s c)) := ih (g s c)
        _ = Except.ok ((c :: cs).foldl g s) := rfl

theorem selFold_spec {κ : Type} (pred : κ → Bool) (p : κ → ℚ)
    (cs : List κ) (hp : ∀ c ∈ cs, pred c = true → 0 < p c) :
    (cs.foldl (selStep pred p) (0, none) = (0, none) ∧
      ∀ c ∈ cs, pred c = false) ∨
    (∃ pre c post, cs = pre ++ c :: post ∧ pred c = true ∧
      (∀ d ∈ cs, pred d = true → p d ≤ p c) ∧
      (∀ d ∈ pre, pred d = true → p d < p c) ∧
      cs.foldl (selStep pred p) (0, none) = (p c, some c)) := by
  induction cs using List.reverseRecOn with
  | nil => exact Or.inl ⟨rfl, by simp⟩
  | append_singleton cs c ih =>
      have hp2 : ∀ d ∈ cs, pred d = true → 0 < p d :=
        fun d hd => hp d (List.mem_append.mpr (Or.inl hd))
      have hpc : pred c = true → 0 < p c :=
        hp c (List.mem_append.mpr (Or.inr (List.mem_singleton.mpr rfl)))
      have hstep : (cs ++ [c]).foldl (selStep pred p) (0, none) =
          selStep pred p (cs.foldl (selStep pred p) (0, none)) c := by
        rw [List.foldl_append, List.foldl_cons, List.foldl_nil]
      rcases ih hp2 with ⟨hfold, hnone⟩ | ⟨pre, c0, post, hcs, hc0, hmax, hstrict, hfold⟩
      · by_cases hc : pred c = true
        · refine Or.inr ⟨cs, c, [], rfl, hc, ?_, ?_, ?_⟩
          · intro d hd hdp
            rcases List.mem_append.mp hd with h | h
            · rw [hnone d h] at hdp
              cases hdp
            · rw [List.mem_singleton.mp h]
          · intro d hd hdp
            rw [hnone d hd] at hdp
            cases hdp
          · rw [hstep, hfold]
            unfold selStep
            rw [if_pos ⟨hc, hpc hc⟩]
        · refine Or.inl ⟨?_, ?_⟩
          · rw [hstep, hfold]
            unfold selStep
            rw [if_neg (fun hcc => hc hcc.1)]
          · intro d hd
            rcases List.mem_append.mp hd with h | h
            · exact hnone d h
            · rw [List.mem_singleton.mp h]
              exact Bool.eq_false_iff.mpr hc
      · by_cases hc : pred c = true ∧ p c0 < p c
        · refine Or.inr ⟨cs, c, [], rfl, hc.1, ?_, ?_, ?_⟩
          · intro d hd hdp
            rcases List.mem_append.mp hd with h | h
            · exact le_of_lt (lt_of_le_of_lt (hmax d h hdp) hc.2)
            · rw [List.mem_singleton.mp h]
          · intro d hd hdp
            exact lt_of_le_of_lt (hmax d hd hdp) hc.2
          · rw [hstep, hfold]
            unfold selStep
            rw [if_pos ⟨hc.1, hc.2⟩]
        · refine Or.inr ⟨pre, c0, post ++ [c], ?_, hc0, ?_, hstrict, ?_⟩
          · rw [hcs]
            simp
          · intro d hd hdp
            rcases List.mem_append.mp hd with h | h
            · exact hmax d h hdp
            · rw [List.mem_singleton.mp h] at hdp ⊢
              exact le_of_not_lt fun hlt => hc ⟨hdp, hlt⟩
          · rw [hstep, hfold]
            unfold selStep
            rw [if_neg hc]

theorem pm_step (G : Digraph α) (ex : Bool) (st : SState α)
    (a : ℚ × Option (α × α)) (c : α × α) (h : pmAbs G ex st a) :
    pmAbs G ex (evalStep G Criterion.power Param.max ex st c)
      (selStep (validC G ex) (pEffC G ex) a c) := by
  obtain ⟨hmax, hlist, hrest⟩ := h
  by_cases hcond : validC G ex c = true ∧ a.1 < pEffC G ex c
  · have hcond2 : pEffC G ex c > st.p_eff_max ∧
        ((tempC G ex c).1.length : ℚ) ≠ 0 ∧
        ((tempC G ex c).2.length : ℚ) ≠ 0 :=
      ⟨by rw [hmax]; exact hcond.2, (validC_iff.mp hcond.1).1,
        (validC_iff.mp hcond.1).2⟩
    simp only [evalStep, selStep]
    rw [if_pos hcond2, if_pos hcond]
    exact ⟨rfl, hlist, rfl, rfl, rfl⟩
  · have hcond2 : ¬(pEffC G ex c > st.p_eff_max ∧
        ((tempC G ex c).1.length : ℚ) ≠ 0 ∧
        ((tempC G ex c).2.length : ℚ) ≠ 0) := by
      rintro ⟨hgt, h1, h2⟩
      exact hcond ⟨validC_iff.mpr ⟨h1, h2⟩, by rw [← hmax]; exact hgt⟩
    simp only [evalStep, selStep]
    rw [if_neg hcond2, if_neg hcond]
    exact ⟨hmax, hlist, hrest⟩

theorem pm_fold (G : Digraph α) (ex : Bool) :
    ∀ (cs : List (α × α)) (st : SState α) (a : ℚ × Option (α × α)),
      pmAbs G ex st a →
      pmAbs G ex (cs.foldl (evalStep G Criterion.power Param.max ex) st)
        (cs.foldl (selStep (validC G ex) (pEffC G ex)) a) := by
  intro cs
  induction cs with
  | nil => exact fun st a h => h
  | cons c cs ih => exact fun st a h => ih _ _ (pm_step G ex st a c h)

theorem th_step_sizeNum (G : Digraph α) (ex : Bool) (N : Int)
    (st : SState α) (a : ℚ × Option (α × α)) (c : α × α)
    (h : thAbs G ex st a) :
    thAbs G ex (evalStep G Criterion.size (Param.num N) ex st c)
      (selStep (qualSizeC G ex N) (pEffC G ex) a c) := by
  obtain ⟨hmax, hrest⟩ := h
  by_cases hq : ((tempC G ex c).1.length : ℚ) +
        ((tempC G ex c).2.length : ℚ) > (N : ℚ) ∧
      ((tempC G ex c).1.length : ℚ) ≠ 0 ∧
      ((tempC G ex c).2.length : ℚ) ≠ 0
  · by_cases hlt : a.1 < pEffC G ex c
    · simp only [evalStep, selStep]
      rw [if_pos hq, if_pos (show st.p_eff_max < pEffC G ex c by
            rw [hmax]; exact hlt),
        if_pos ⟨qualSizeC_iff.mpr hq, hlt⟩]
      exact ⟨rfl, rfl, rfl⟩
    · simp only [evalStep, selStep]
      rw [if_pos hq, if_neg (show ¬st.p_eff_max < pEffC G ex c by
            rw [hmax]; exact hlt),
        if_neg (fun hcc => hlt hcc.2)]
      exact ⟨hmax, hrest⟩
  · simp only [evalStep, selStep]
    rw [if_neg hq, if_neg (fun hcc => hq (qualSizeC_iff.mp hcc.1))]
    exact ⟨hmax, hrest⟩

theorem th_fold_sizeNum (G : Digraph α) (ex : Bool) (N : Int) :
    ∀ (cs : List (α × α)) (st : SState α) (a : ℚ × Option (α × α)),
      thAbs G ex st a →
      thAbs G ex
        (cs.foldl (evalStep G Criterion.size (Param.num N) ex) st)
        (cs.foldl (selStep (qualSizeC G ex N) (pEffC G ex)) a) := by
  intro cs
  induction cs with
  | nil => exact fun st a h => h
  | cons c cs ih =>
      exact fun st a h => ih _ _ (th_step_sizeNum G ex N st a c h)

theorem sizeNum_info_list (G : Digraph α) (ex : Bool) (N : Int) :
    ∀ (cs : List (α × α)) (st : SState α),
      (cs.foldl (evalStep G Criterion.size (Param.num N) ex) st).info_list
        = st.info_list ++
          (cs.filter (qualSizeC G ex N)).map (recC G ex) := by
  intro cs
  induction cs with
  | nil => intro st; simp
  | cons c cs ih =>
      intro st
      rw [List.foldl_cons, ih]
      by_cases hq : ((tempC G ex c).1.length : ℚ) +
            ((tempC G ex c).2.length : ℚ) > (N : ℚ) ∧
          ((tempC G ex c).1.length : ℚ) ≠ 0 ∧
          ((tempC G ex c).2.length : ℚ) ≠ 0
      · have hstep :
            SState.info_list (evalStep G Criterion.size (Param.num N) ex st c)
              = st.info_list ++ [recC G ex c] := by
          simp only [evalStep]
          rw [if_pos hq]
          split <;> rfl
        rw [hstep, List.filter_cons_of_pos (by
          rw [qualSizeC_iff]
          exact hq)]
        simp
      · have hstep :
            SState.info_list (evalStep G Criterion.size (Param.num N) ex st c)
              = st.info_list := by
          simp only [evalStep]
          rw [if_neg hq]
        rw [hstep, List.filter_cons_of_neg (by
          intro hcc
          exact hq (qualSizeC_iff.mp hcc))]

/-- C3, counterexample: on `exGK2` (two mutually adjacent nodes, hence
an empty candidate table) `find_clusters` with an invalid parameter in
a threshold mode completes normally instead of failing — no error of
any kind is raised, so in particular none is raised before search work
begins. -/
theorem c3_counterexample :
    find_clusters exGK2 Criterion.power Param.invalid false =
      Except.ok initState := by
  rfl

/-- C3, amended: with a parameter that is neither "max" nor numeric,
`find_clusters` raises the parse error (Python `ValueError`, not a
dedicated InvalidConfiguration) lazily, during evaluation of the first
candidate — after candidate enumeration and that candidate's growth and
scoring — so it fails exactly when the candidate table is non-empty and
returns normally when it is empty. -/
theorem c3_lazy_parse_error (G : Digraph α) (crit : Criterion)
    (ex : Bool) :
    find_clusters G crit Param.invalid ex =
      if create_table G = [] then Except.ok initState
      else Except.error () := by
  unfold find_clusters
  cases h : create_table G with
  | nil => rfl
  | cons c cs =>
      rw [if_neg (by simp)]
      cases crit <;> rfl

/-- C6: for every graph, exclusion flag and candidate, the power saving
the search computes (`pEffC`, source lines 215-219) is exactly the
spec's formula `100·(1 − p_after/p_before)` with `p_before = nodes²`
and `p_after = r·(r+g) + b·(b+g) + nodes·g` at `g = nodes − r − b`; in
particular `p_after = 82` and `power = 18` (exact arithmetic) for
`nodes = 10, r = 3, b = 3, g = 4`. -/
theorem c6_power_formula_exact :
    (∀ (G : Digraph Nat) (ex : Bool) (c : Nat × Nat),
      pEffC G ex c =
        specPower ((G.nodes.length : ℚ)) (((tempC G ex c).1.length : ℚ))
          (((tempC G ex c).2.length : ℚ))
          ((G.nodes.length : ℚ) - ((tempC G ex c).1.length : ℚ) -
            ((tempC G ex c).2.length : ℚ))) ∧
    codePAfter 10 3 3 = 82 ∧ codePEff 10 3 3 = 18 := by
  refine ⟨fun G ex c => rfl, by norm_num [codePAfter],
    by norm_num [codePEff, codePAfter]⟩

/-- C7: a candidate whose grown (and optionally filtered) clusters have
`r = 0` or `b = 0` leaves the search state untouched in every valid
criterion/parameter combination — it is never retained, never appended,
and its evaluation raises no error. -/
theorem c7_zero_size_skipped (G : Digraph α) (crit : Criterion)
    (param : Param) (ex : Bool) (st : SState α) (c : α × α)
    (hp : param ≠ Param.invalid)
    (hz : (tempC G ex c).1.length = 0 ∨ (tempC G ex c).2.length = 0) :
    evalCandidate G crit param ex st c = Except.ok st := by
  have hzq : ((tempC G ex c).1.length : ℚ) = 0 ∨
      ((tempC G ex c).2.length : ℚ) = 0 := by
    rcases hz with h | h
    · exact Or.inl (by exact_mod_cast h)
    · exact Or.inr (by exact_mod_cast h)
  cases crit <;> cases param <;> first
    | exact absurd rfl hp
    | · simp only [evalCandidate]
        split
        · next hcond =>
            exfalso
            rcases hzq with h | h
            · exact hcond.2.1 h
            · exact hcond.2.2 h
        · rfl

/-- Witness for `c7_zero_size_skipped`: on the self-loop graph the
degenerate pair `(0, 0)` grows to two empty clusters and is skipped. -/
theorem c7_zero_size_skipped_witness :
    (Param.max ≠ Param.invalid ∧
      ((tempC exGLoop false (0, 0)).1.length = 0 ∨
       (tempC exGLoop false (0, 0)).2.length = 0)) ∧
    evalCandidate exGLoop Criterion.power Param.max false initState (0, 0)
      = Except.ok initState :=
  ⟨⟨by decide, by decide⟩,
    c7_zero_size_skipped exGLoop Criterion.power Param.max false initState
      (0, 0) (by decide) (by decide)⟩

/-- C8: with criterion "power" and parameter "max" the search retains
as the sole Solution Record the earliest candidate attaining the
strictly largest power among the candidates with nonzero cluster sizes
(the strict `>` comparison makes the earlier candidate in generator
order win ties), and the qualifying collection stays empty. -/
theorem c8_power_max_selects_argmax (G : Digraph α) (ex : Bool)
    (h : ∃ c ∈ create_table G, validC G ex c = true) :
    ∃ st pre c post,
      find_clusters G Criterion.power Param.max ex = Except.ok st ∧
      create_table G = pre ++ c :: post ∧
      validC G ex c = true ∧
      (∀ d ∈ create_table G, validC G ex d = true →
        pEffC G ex d ≤ pEffC G ex c) ∧
      (∀ d ∈ pre, validC G ex d = true → pEffC G ex d < pEffC G ex c) ∧
      st.cluster = tempC G ex c ∧
      st.info_max = some (recC G ex c) ∧
      st.info_list = [] := by
  obtain ⟨c0, hc0, hv0⟩ := h
  have hnodes : G.nodes ≠ [] :=
    create_table_nodes_ne_nil (by
      intro hnil
      rw [hnil] at hc0
      cases hc0)
  have hn : ((G.nodes.length : ℚ)) ≠ 0 := by
    have hlen : G.nodes.length ≠ 0 :=
      fun h0 => hnodes (List.length_eq_zero.mp h0)
    exact_mod_cast hlen
  have hp : ∀ c ∈ create_table G, validC G ex c = true →
      0 < pEffC G ex c := by
    intro c _ hv
    obtain ⟨h1, h2⟩ := validC_iff.mp hv
    exact pEff_pos _ _ _ hn (len_pos_of_ne_zero h1) (len_pos_of_ne_zero h2)
  rcases selFold_spec (validC G ex) (pEffC G ex) (create_table G) hp with
    ⟨-, hnone⟩ | ⟨pre, c, post, hcs, hc, hmaxall, hstrict, hfold⟩
  · rw [hnone c0 hc0] at hv0
    cases hv0
  · have hcouple := pm_fold G ex (create_table G) initState (0, none)
      ⟨rfl, rfl, rfl, rfl, rfl⟩
    rw [hfold] at hcouple
    simp only [pmAbs] at hcouple
    obtain ⟨-, hlist, hclu, hinfo, -⟩ := hcouple
    exact ⟨_, pre, c, post,
      foldlM_ok _ _
        (fun s d => evalCandidate_ok G Criterion.power Param.max ex
          (by simp) s d)
        (create_table G) initState,
      hcs, hc, hmaxall, hstrict, hclu, hinfo, hlist⟩

/-- Witness for `c8_power_max_selects_argmax` on the two-node edgeless
graph, whose only candidate is `(0, 1)`. -/
theorem c8_power_max_selects_argmax_witness :
    (∃ c ∈ create_table exG2, validC exG2 false c = true) ∧
    ∃ st pre c post,
      find_clusters exG2 Criterion.power Param.max false = Except.ok st ∧
      create_table exG2 = pre ++ c :: post ∧
      validC exG2 false c = true ∧
      (∀ d ∈ create_table exG2, validC exG2 false d = true →
        pEffC exG2 false d ≤ pEffC exG2 false c) ∧
      (∀ d ∈ pre, validC exG2 false d = true →
        pEffC exG2 false d < pEffC exG2 false c) ∧
      st.cluster = tempC exG2 false c ∧
      st.info_max = some (recC exG2 false c) ∧
      st.info_list = [] :=
  ⟨⟨(0, 1), by decide, by decide⟩,
    c8_power_max_selects_argmax exG2 false ⟨(0, 1), by decide, by decide⟩⟩

/-- C9: with criterion "size" and numeric parameter N, the qualifying
collection is exactly (in generator order, one entry per candidate) the
records of the candidates with `r + b > N` and `r, b ≠ 0`, and whenever
a qualifier exists the returned cluster pair is the earliest qualifier
of maximum power. -/
theorem c9_size_threshold_collection (G : Digraph α) (N : Int)
    (ex : Bool) :
    ∃ st,
      find_clusters G Criterion.size (Param.num N) ex = Except.ok st ∧
      st.info_list =
        ((create_table G).filter (qualSizeC G ex N)).map (recC G ex) ∧
      ((∃ c ∈ create_table G, qualSizeC G ex N c = true) →
        ∃ pre c post, create_table G = pre ++ c :: post ∧
          qualSizeC G ex N c = true ∧
          (∀ d ∈ create_table G, qualSizeC G ex N d = true →
            pEffC G ex d ≤ pEffC G ex c) ∧
          (∀ d ∈ pre, qualSizeC G ex N d = true →
            pEffC G ex d < pEffC G ex c) ∧
          st.cluster = tempC G ex c) := by
  refine ⟨(create_table G).foldl
      (evalStep G Criterion.size (Param.num N) ex) initState,
    foldlM_ok _ _
      (fun s d => evalCandidate_ok G Criterion.size (Param.num N) ex
        (by simp) s d)
      (create_table G) initState,
    (sizeNum_info_list G ex N (create_table G) initState).trans
      (List.nil_append _),
    ?_⟩
  rintro ⟨c0, hc0, hq0⟩
  have hnodes : G.nodes ≠ [] :=
    create_table_nodes_ne_nil (by
      intro hnil
      rw [hnil] at hc0
      cases hc0)
  have hn : ((G.nodes.length : ℚ)) ≠ 0 := by
    have hlen : G.nodes.length ≠ 0 :=
      fun h0 => hnodes (List.length_eq_zero.mp h0)
    exact_mod_cast hlen
  have hp : ∀ c ∈ create_table G, qualSizeC G ex N c = true →
      0 < pEffC G ex c := by
    intro c _ hq
    obtain ⟨-, h1, h2⟩ := qualSizeC_iff.mp hq
    exact pEff_pos _ _ _ hn (len_pos_of_ne_zero h1) (len_pos_of_ne_zero h2)
  rcases selFold_spec (qualSizeC G ex N) (pEffC G ex) (create_table G) hp
    with ⟨-, hnone⟩ | ⟨pre, c, post, hcs, hc, hmaxall, hstrict, hfold⟩
  · rw [hnone c0 hc0] at hq0
    cases hq0
  · have hcouple := th_fold_sizeNum G ex N (create_table G) initState
      (0, none) ⟨rfl, rfl, rfl⟩
    rw [hfold] at hcouple
    simp only [thAbs] at hcouple
    obtain ⟨-, hclu, -⟩ := hcouple
    exact ⟨pre, c, post, hcs, hc, hmaxall, hstrict, hclu⟩

/-- Witness for `c9_size_threshold_collection` on the two-node
edgeless graph with threshold 1: the single candidate `(0, 1)` has
`r + b = 2 > 1`. -/
theorem c9_size_threshold_collection_witness :
    ∃ st,
      find_clusters exG2 Criterion.size (Param.num 1) false
        = Except.ok st ∧
      st.info_list =
        ((create_table exG2).filter (qualSizeC exG2 false 1)).map
          (recC exG2 false) ∧
      ∃ pre c post, create_table exG2 = pre ++ c :: post ∧
        qualSizeC exG2 false 1 c = true ∧
        (∀ d ∈ create_table exG2, qualSizeC exG2 false 1 d = true →
          pEffC exG2 false d ≤ pEffC exG2 false c) ∧
        (∀ d ∈ pre, qualSizeC exG2 false 1 d = true →
          pEffC exG2 false d < pEffC exG2 false c) ∧
        st.cluster = tempC exG2 false c := by
  obtain ⟨st, hok, hlist, himp⟩ :=
    c9_size_threshold_collection exG2 1 false
  exact ⟨st, hok, hlist, himp ⟨(0, 1), by decide, by decide⟩⟩

/-- C10: the computed power saving satisfies the exact identity
`power = 200·r·b/nodes²`, hence is strictly positive whenever both
clusters are nonempty; consequently the initial `p_eff_max = 0` never
rejects a first valid candidate in max mode (its record is retained)
and never keeps a qualifying candidate from setting the best cluster in
threshold mode. -/
theorem c10_power_saving_identity (G : Digraph α) :
    (∀ n l1 l2 : ℚ, n ≠ 0 → codePEff n l1 l2 = 200 * l1 * l2 / (n * n)) ∧
    (∀ n l1 l2 : ℚ, n ≠ 0 → 0 < l1 → 0 < l2 → 0 < codePEff n l1 l2) ∧
    (∀ (ex : Bool) (c : α × α), G.nodes ≠ [] → validC G ex c = true →
      (evalStep G Criterion.power Param.max ex initState c).info_max
        = some (recC G ex c)) ∧
    (∀ (ex : Bool) (N : Int) (c : α × α), G.nodes ≠ [] →
      qualSizeC G ex N c = true →
      (evalStep G Criterion.size (Param.num N) ex initState c).cluster
        = tempC G ex c) := by
  have hq : ∀ (hnodes : G.nodes ≠ []), ((G.nodes.length : ℚ)) ≠ 0 := by
    intro hnodes
    have hlen : G.nodes.length ≠ 0 :=
      fun h0 => hnodes (List.length_eq_zero.mp h0)
    exact_mod_cast hlen
  refine ⟨pEff_identity, pEff_pos, ?_, ?_⟩
  · intro ex c hnodes hv
    obtain ⟨h1, h2⟩ := validC_iff.mp hv
    have hpos : 0 < pEffC G ex c :=
      pEff_pos _ _ _ (hq hnodes) (len_pos_of_ne_zero h1)
        (len_pos_of_ne_zero h2)
    simp only [evalStep]
    rw [if_pos ⟨hpos, h1, h2⟩]
  · intro ex N c hnodes hqual
    obtain ⟨hgt, h1, h2⟩ := qualSizeC_iff.mp hqual
    have hpos : 0 < pEffC G ex c :=
      pEff_pos _ _ _ (hq hnodes) (len_pos_of_ne_zero h1)
        (len_pos_of_ne_zero h2)
    simp only [evalStep]
    rw [if_pos ⟨hgt, h1, h2⟩,
      if_pos (show initState.p_eff_max < pEffC G ex c from hpos)]

/-- Witness for `c10_power_saving_identity` at concrete inputs. -/
theorem c10_power_saving_identity_witness :
    codePEff 2 1 1 = 200 * 1 * 1 / (2 * 2) ∧
    0 < codePEff 2 1 1 ∧
    SState.info_max
        (evalStep exG2 Criterion.power Param.max false initState (0, 1))
      = some (recC exG2 false (0, 1)) ∧
    SState.cluster
        (evalStep exG2 Criterion.size (Param.num 1) false initState (0, 1))
      = tempC exG2 false (0, 1) :=
  ⟨(c10_power_saving_identity exG2).1 2 1 1 (by norm_num),
   (c10_power_saving_identity exG2).2.1 2 1 1 (by norm_num)
     (by norm_num) (by norm_num),
   (c10_power_saving_identity exG2).2.2.1 false (0, 1) (by decide)
     (by decide),
   (c10_power_saving_identity exG2).2.2.2 false 1 (0, 1) (by decide)
     (by decide)⟩

end Petrushin
